import Mathlib

/-!
Shallow embedding of the `flock` package (src/flock.go): timed, advisory
file locks represented by lockfile markers on a filesystem.

Modelling choices:
* Time and durations are `Int` nanoseconds (Go's `time.Duration` is an
  `int64` nanosecond count; `time.Minute = 60_000_000_000 ns`).
  `t.Add(d).Before(u)` becomes `t + d < u`.
* The filesystem is an association list `FS = List (String × Int)` mapping a
  path to its modification time.  `os.Stat` is a lookup, `os.Remove` removes
  the entry, `os.OpenFile` with `O_CREATE|O_EXCL` inserts it exactly when it
  is absent, `os.Chtimes` rewrites its modification time.  Each OS call takes
  the current time where it needs one and returns the updated filesystem plus
  a Go error value (`none` models a nil error).
* Go's sentinel errors are a closed inductive `GoErr`; `errors.Is(err, s)`
  for a sentinel `s` is equality with `some s`.  `GoErr.other` stands for any
  other storage-layer failure (permission denied etc.).
* Besides the filesystem-state semantics there is an "oracle" semantics of
  the same control flow in which the result of every OS call is an explicit
  input; it is used to reason about arbitrary injected storage errors, which
  the concrete in-memory filesystem cannot produce.
-/

namespace Flock

/-- Go error values visible in the package: `os.ErrExist`, `os.ErrNotExist`,
the package sentinels `ErrLocked` and `ErrNotLocked`, and `other code` for
any other storage failure. -/
inductive GoErr where
  | errExist
  | errNotExist
  | locked
  | notLocked
  | other (code : Nat)
deriving DecidableEq

/-- `Locker` from flock.go: `Lockfile` is the optional marker-naming
function (Go `nil` function = `none`), `LockDur` the configured lease
duration in nanoseconds (Go zero value = `0`). -/
structure Locker where
  Lockfile : Option (String → String)
  LockDur : Int

/-- `var defaultDur = time.Minute` (in nanoseconds). -/
def defaultDur : Int := 60 * 1000000000

/-- `func (l Locker) lockfile(path string) string`. -/
def Locker.lockfile (l : Locker) (path : String) : String :=
  match l.Lockfile with
  | some f => f path
  | none => path ++ ".lock"

/-- `func (l Locker) lockDur() time.Duration`. -/
def Locker.lockDur (l : Locker) : Int :=
  if l.LockDur ≠ 0 then l.LockDur else defaultDur

/-- In-memory filesystem: association list from path to modification time. -/
abbrev FS := List (String × Int)

/-- `os.Stat` restricted to what the package reads: the modification time,
or `none` when the path does not exist. -/
def statFS : FS → String → Option Int
  | [], _ => none
  | (q, t) :: rest, p => if q = p then some t else statFS rest p

/-- Erase every entry for a path from the filesystem. -/
def removeEntry : FS → String → FS
  | [], _ => []
  | (q, t) :: rest, p => if q = p then removeEntry rest p else (q, t) :: removeEntry rest p

/-- `os.Remove`: deletes the entry; `ErrNotExist` when it is absent. -/
def removeFS (fs : FS) (p : String) : FS × Option GoErr :=
  if (statFS fs p).isSome then (removeEntry fs p, none)
  else (fs, some GoErr.errNotExist)

/-- `os.OpenFile(p, O_CREATE|O_EXCL|O_WRONLY, 0644)`: atomic
create-if-absent; `ErrExist` when the path already exists.  A created file's
modification time is the current time. -/
def openFileExcl (fs : FS) (p : String) (now : Int) : FS × Option GoErr :=
  if (statFS fs p).isSome then (fs, some GoErr.errExist)
  else ((p, now) :: fs, none)

/-- `os.Chtimes(p, now, now)`: sets the modification time; `ErrNotExist`
when the path is absent. -/
def chtimesFS (fs : FS) (p : String) (now : Int) : FS × Option GoErr :=
  if (statFS fs p).isSome then ((p, now) :: removeEntry fs p, none)
  else (fs, some GoErr.errNotExist)

/-- `func (l Locker) removeIfExpired(lockfile string) error`, against the
in-memory filesystem.  Mirrors the source: stat; `ErrNotExist` means free;
`info.ModTime().Add(l.lockDur()).Before(time.Now())` (i.e. `modTime +
lockDur < now`) means expired, so remove; otherwise `ErrLocked`. -/
def Locker.removeIfExpired (l : Locker) (fs : FS) (now : Int) (lockfile : String) :
    FS × Option GoErr :=
  match statFS fs lockfile with
  | none => (fs, none)
  | some modTime =>
    if modTime + l.lockDur < now then removeFS fs lockfile
    else (fs, some GoErr.locked)

/-- `func (l Locker) Lock(path string) error`, against the in-memory
filesystem. -/
def Locker.Lock (l : Locker) (fs : FS) (now : Int) (path : String) :
    FS × Option GoErr :=
  let lockfile := l.lockfile path
  match l.removeIfExpired fs now lockfile with
  | (fs1, some e) => (fs1, some e)
  | (fs1, none) =>
    match openFileExcl fs1 lockfile now with
    | (fs2, some e) => if e = GoErr.errExist then (fs2, some GoErr.locked) else (fs2, some e)
    | (fs2, none) => (fs2, none)

/-- `func (l Locker) Unlock(path string) error`, against the in-memory
filesystem. -/
def Locker.Unlock (l : Locker) (fs : FS) (path : String) : FS × Option GoErr :=
  let lockfile := l.lockfile path
  match removeFS fs lockfile with
  | (fs1, some e) => if e = GoErr.errNotExist then (fs1, none) else (fs1, some e)
  | (fs1, none) => (fs1, none)

/-- `func (l Locker) Refresh(path string) error`, against the in-memory
filesystem. -/
def Locker.Refresh (l : Locker) (fs : FS) (now : Int) (path : String) :
    FS × Option GoErr :=
  let lockfile := l.lockfile path
  match l.removeIfExpired fs now lockfile with
  | (fs1, err) =>
    if err ≠ none ∧ err ≠ some GoErr.locked then (fs1, err)
    else
      match chtimesFS fs1 lockfile now with
      | (fs2, some e) => if e = GoErr.errNotExist then (fs2, some GoErr.notLocked) else (fs2, some e)
      | (fs2, none) => (fs2, none)

/-- Result of `os.Stat` in the oracle semantics: a modification time, or an
arbitrary error (`.err GoErr.errNotExist` models the not-found case). -/
inductive StatRes where
  | ok (modTime : Int)
  | err (e : GoErr)
deriving DecidableEq

/-- `removeIfExpired` with the result of each OS call supplied as an input:
`statRes` is what `os.Stat` returned, `removeRes` what `os.Remove` would
return if reached. -/
def Locker.removeIfExpiredOracle (l : Locker) (statRes : StatRes)
    (removeRes : Option GoErr) (now : Int) : Option GoErr :=
  match statRes with
  | .err e => if e = GoErr.errNotExist then none else some e
  | .ok modTime =>
    if modTime + l.lockDur < now then removeRes
    else some GoErr.locked

/-- `Lock` with the result of each OS call supplied as an input
(`createRes` for the exclusive `os.OpenFile`, `closeRes` for `f.Close()`). -/
def Locker.LockOracle (l : Locker) (statRes : StatRes)
    (removeRes createRes closeRes : Option GoErr) (now : Int) : Option GoErr :=
  match l.removeIfExpiredOracle statRes removeRes now with
  | some e => some e
  | none =>
    match createRes with
    | some e => if e = GoErr.errExist then some GoErr.locked else some e
    | none => closeRes

/-- `Refresh` with the result of each OS call supplied as an input
(`chtimesRes` for `os.Chtimes`). -/
def Locker.RefreshOracle (l : Locker) (statRes : StatRes)
    (removeRes chtimesRes : Option GoErr) (now : Int) : Option GoErr :=
  let err := l.removeIfExpiredOracle statRes removeRes now
  if err ≠ none ∧ err ≠ some GoErr.locked then err
  else
    match chtimesRes with
    | some e => if e = GoErr.errNotExist then some GoErr.notLocked else some e
    | none => none

/-! ### Interleaving model of concurrent `Lock` calls

`N` callers run `Lock` on the same path concurrently (within one instant, so
no lease expires during the race).  Each OS syscall is one atomic action
against the shared filesystem, and in particular the `os.Stat` and the
`os.Remove` inside `removeIfExpired` are two separate actions: other
acquirers may run between them, which is exactly the window in which one
acquirer's remove can delete another acquirer's freshly created marker.  The
scheduler interleaves the actions of the callers arbitrarily. -/

/-- Control state of one concurrent acquirer running `Lock`: not yet
stepped; past an `os.Stat` that saw an expired marker, about to call
`os.Remove`; past a `removeIfExpired` pass that reported the path free,
about to call the exclusive create; or finished with `Lock`'s return
value. -/
inductive AcqState where
  | started
  | removing
  | checked
  | done (r : Option GoErr)
deriving DecidableEq

/-- One acquirer's `os.Stat` call together with `removeIfExpired`'s local
comparison of the fetched modification time: an absent marker means free
(ready to create), a live marker ends the call with `ErrLocked`, an expired
marker means ready to call `os.Remove`.  The shared filesystem is not
modified. -/
def acqStat (l : Locker) (fs : FS) (now : Int) (lockfile : String) :
    AcqState :=
  match statFS fs lockfile with
  | none => AcqState.checked
  | some modTime =>
    if modTime + l.lockDur < now then AcqState.removing
    else AcqState.done (some GoErr.locked)

/-- One acquirer's `os.Remove` call, a separate syscall that may run after
other acquirers changed the filesystem: it deletes whatever marker is there
now; on success `Lock` falls through to the create step, and an error
(`ErrNotExist` included) is returned by `Lock` as is. -/
def acqRemove (fs : FS) (lockfile : String) : FS × AcqState :=
  match removeFS fs lockfile with
  | (fs1, none) => (fs1, AcqState.checked)
  | (fs1, some e) => (fs1, AcqState.done (some e))

/-- One acquirer's exclusive-create syscall, with `Lock`'s mapping of
`os.ErrExist` to `ErrLocked`. -/
def acqCreate (fs : FS) (now : Int) (lockfile : String) : FS × AcqState :=
  match openFileExcl fs lockfile now with
  | (fs1, some e) =>
      if e = GoErr.errExist then (fs1, AcqState.done (some GoErr.locked))
      else (fs1, AcqState.done (some e))
  | (fs1, none) => (fs1, AcqState.done none)

/-- Scheduler step: pick any acquirer that is not done and run its next
atomic syscall against the shared filesystem. -/
inductive AcqStep (l : Locker) (now : Int) (lockfile : String) :
    FS × List AcqState → FS × List AcqState → Prop where
  | stat (fs : FS) (ps qs : List AcqState) (s : AcqState) :
      acqStat l fs now lockfile = s →
      AcqStep l now lockfile (fs, ps ++ AcqState.started :: qs)
        (fs, ps ++ s :: qs)
  | remove (fs fs' : FS) (ps qs : List AcqState) (s : AcqState) :
      acqRemove fs lockfile = (fs', s) →
      AcqStep l now lockfile (fs, ps ++ AcqState.removing :: qs)
        (fs', ps ++ s :: qs)
  | create (fs fs' : FS) (ps qs : List AcqState) (s : AcqState) :
      acqCreate fs now lockfile = (fs', s) →
      AcqStep l now lockfile (fs, ps ++ AcqState.checked :: qs)
        (fs', ps ++ s :: qs)

/-- Invariant of the race from a path with no prior marker: while nobody has
created the marker the path stays free and nobody has finished (and nobody
is about to remove); once it exists its modification time is `now`, exactly
one acquirer finished successfully and every other finished acquirer got
`ErrLocked`. -/
def RaceInv (lockfile : String) (now : Int) (n : Nat)
    (c : FS × List AcqState) : Prop :=
  c.2.length = n ∧
  ((statFS c.1 lockfile = none ∧
     ∀ s ∈ c.2, s = AcqState.started ∨ s = AcqState.checked) ∨
   (statFS c.1 lockfile = some now ∧
     c.2.count (AcqState.done none) = 1 ∧
     ∀ s ∈ c.2, s = AcqState.started ∨ s = AcqState.checked ∨
       s = AcqState.done none ∨ s = AcqState.done (some GoErr.locked)))

/-! ### Basic facts about the filesystem primitives -/

theorem statFS_removeEntry_self (fs : FS) (p : String) :
    statFS (removeEntry fs p) p = none := by
  induction fs with
  | nil => rfl
  | cons a rest ih =>
    obtain ⟨q, t⟩ := a
    by_cases h : q = p
    · simpa [removeEntry, h] using ih
    · simpa [removeEntry, statFS, h] using ih

theorem statFS_removeEntry_other (fs : FS) (p q : String) (h : q ≠ p) :
    statFS (removeEntry fs p) q = statFS fs q := by
  induction fs with
  | nil => rfl
  | cons a rest ih =>
    obtain ⟨r, t⟩ := a
    by_cases hr : r = p
    · simp [removeEntry, statFS, hr, Ne.symm h, ih]
    · by_cases hq : r = q <;> simp [removeEntry, statFS, hr, hq, h, ih]

/-! ### Result of each operation, by case on the marker's state -/

theorem lock_locked_of_live (l : Locker) (fs : FS) (now modTime : Int)
    (path : String)
    (hstat : statFS fs (l.lockfile path) = some modTime)
    (hlive : now ≤ modTime + l.lockDur) :
    l.Lock fs now path = (fs, some GoErr.locked) := by
  have hnot : ¬ (modTime + l.lockDur < now) := by omega
  simp [Locker.Lock, Locker.removeIfExpired, hstat, hnot]

theorem lock_creates_of_absent (l : Locker) (fs : FS) (now : Int)
    (path : String)
    (hstat : statFS fs (l.lockfile path) = none) :
    l.Lock fs now path = ((l.lockfile path, now) :: fs, none) := by
  simp [Locker.Lock, Locker.removeIfExpired, openFileExcl, hstat]

theorem lock_reclaim_of_expired (l : Locker) (fs : FS) (now modTime : Int)
    (path : String)
    (hstat : statFS fs (l.lockfile path) = some modTime)
    (hexp : modTime + l.lockDur < now) :
    l.Lock fs now path =
      ((l.lockfile path, now) :: removeEntry fs (l.lockfile path), none) := by
  have h1 : (statFS fs (l.lockfile path)).isSome := by rw [hstat]; rfl
  have h2 : statFS (removeEntry fs (l.lockfile path)) (l.lockfile path) = none :=
    statFS_removeEntry_self fs (l.lockfile path)
  simp [Locker.Lock, Locker.removeIfExpired, removeFS, openFileExcl,
    hstat, hexp, h1, h2]

theorem refresh_touch_of_live (l : Locker) (fs : FS) (now modTime : Int)
    (path : String)
    (hstat : statFS fs (l.lockfile path) = some modTime)
    (hlive : now ≤ modTime + l.lockDur) :
    l.Refresh fs now path =
      ((l.lockfile path, now) :: removeEntry fs (l.lockfile path), none) := by
  have hnot : ¬ (modTime + l.lockDur < now) := by omega
  have h1 : (statFS fs (l.lockfile path)).isSome := by rw [hstat]; rfl
  simp [Locker.Refresh, Locker.removeIfExpired, chtimesFS, hstat, hnot, h1]

theorem refresh_removes_expired (l : Locker) (fs : FS) (now modTime : Int)
    (path : String)
    (hstat : statFS fs (l.lockfile path) = some modTime)
    (hexp : modTime + l.lockDur < now) :
    l.Refresh fs now path =
      (removeEntry fs (l.lockfile path), some GoErr.notLocked) := by
  have h1 : (statFS fs (l.lockfile path)).isSome := by rw [hstat]; rfl
  have h2 : statFS (removeEntry fs (l.lockfile path)) (l.lockfile path) = none :=
    statFS_removeEntry_self fs (l.lockfile path)
  simp [Locker.Refresh, Locker.removeIfExpired, removeFS, chtimesFS,
    hstat, hexp, h1, h2]

theorem refresh_not_locked_of_absent (l : Locker) (fs : FS) (now : Int)
    (path : String)
    (hstat : statFS fs (l.lockfile path) = none) :
    l.Refresh fs now path = (fs, some GoErr.notLocked) := by
  simp [Locker.Refresh, Locker.removeIfExpired, chtimesFS, hstat]

theorem unlock_of_absent (l : Locker) (fs : FS) (path : String)
    (hstat : statFS fs (l.lockfile path) = none) :
    l.Unlock fs path = (fs, none) := by
  simp [Locker.Unlock, removeFS, hstat]

theorem unlock_of_present (l : Locker) (fs : FS) (path : String)
    (hstat : (statFS fs (l.lockfile path)).isSome) :
    l.Unlock fs path = (removeEntry fs (l.lockfile path), none) := by
  simp [Locker.Unlock, removeFS, hstat]

/-! ### Claim theorems -/

/-- C1: when the marker for a path exists and is still live (its age is less
than the lease duration), `Lock` returns `ErrLocked` and leaves the
filesystem — in particular the existing marker — unchanged; the create step
is never reached. -/
theorem lock_live_marker_locked (l : Locker) (fs : FS) (now modTime : Int)
    (path : String)
    (hstat : statFS fs (l.lockfile path) = some modTime)
    (hlive : now - modTime < l.lockDur) :
    l.Lock fs now path = (fs, some GoErr.locked) := by
  have hnot : ¬ (modTime + l.lockDur < now) := by omega
  simp [Locker.Lock, Locker.removeIfExpired, hstat, hnot]

/-- Witness for C1: a marker 5 ns old with the default one-minute lease. -/
theorem lock_live_marker_locked_witness :
    (Locker.mk none 0).Lock [("p.lock", 0)] 5 "p" =
      ([("p.lock", 0)], some GoErr.locked) :=
  lock_live_marker_locked (Locker.mk none 0) [("p.lock", 0)] 5 0 "p"
    (by decide) (by decide)

/-- C2 counterexample: with the default one-minute lease, a marker whose age
is exactly the lease duration (modTime 0, now = 60 s) is still treated as
live: `Lock` returns `ErrLocked` and leaves the marker in place, whereas the
claim says an acquire attempted exactly `leaseDuration` after the marker's
modification time succeeds. -/
theorem lock_exact_expiry_counterexample :
    (Locker.mk none 0).Lock [("p.lock", 0)] 60000000000 "p" =
      ([("p.lock", 0)], some GoErr.locked) := by decide

/-- C2 (amended): expiry is strict — a marker is reclaimed only when its age
is strictly greater than the lease duration (`modTime + lockDur < now`), in
which case `Lock` deletes it and proceeds to the create step, which succeeds;
at age exactly equal to the lease duration the marker is still treated as
live and `Lock` returns `ErrLocked`. -/
theorem lock_reclaims_strictly_expired (l : Locker) (fs : FS)
    (now modTime : Int) (path : String)
    (hstat : statFS fs (l.lockfile path) = some modTime) :
    (modTime + l.lockDur < now →
      l.Lock fs now path =
        ((l.lockfile path, now) :: removeEntry fs (l.lockfile path), none)) ∧
    (now = modTime + l.lockDur →
      l.Lock fs now path = (fs, some GoErr.locked)) := by
  constructor
  · intro hexp
    have h1 : (statFS fs (l.lockfile path)).isSome := by rw [hstat]; rfl
    have h2 : statFS (removeEntry fs (l.lockfile path)) (l.lockfile path) = none :=
      statFS_removeEntry_self fs (l.lockfile path)
    simp [Locker.Lock, Locker.removeIfExpired, removeFS, openFileExcl,
      hstat, hexp, h1, h2]
  · intro heq
    have hnot : ¬ (modTime + l.lockDur < now) := by omega
    simp [Locker.Lock, Locker.removeIfExpired, hstat, hnot]

/-- Witness for C2 (amended): reclamation one nanosecond past the lease, and
`ErrLocked` exactly at the lease boundary. -/
theorem lock_reclaims_strictly_expired_witness :
    (Locker.mk none 0).Lock [("p.lock", 0)] 60000000001 "p" =
      (((Locker.mk none 0).lockfile "p", 60000000001) ::
        removeEntry [("p.lock", 0)] ((Locker.mk none 0).lockfile "p"), none) ∧
    (Locker.mk none 0).Lock [("p.lock", 0)] 60000000000 "p" =
      ([("p.lock", 0)], some GoErr.locked) :=
  ⟨(lock_reclaims_strictly_expired (Locker.mk none 0) [("p.lock", 0)]
      60000000001 0 "p" (by decide)).1 (by decide),
   (lock_reclaims_strictly_expired (Locker.mk none 0) [("p.lock", 0)]
      60000000000 0 "p" (by decide)).2 (by decide)⟩

/-- C3 counterexample: with the default one-minute lease, `Refresh` on a
marker whose age is exactly the lease duration does not return
`ErrNotLocked`: the marker is still treated as live, so the call succeeds
and touches it, whereas the claim says an age exactly equal to the lease
duration already yields `ErrNotLocked`. -/
theorem refresh_exact_expiry_counterexample :
    (Locker.mk none 0).Refresh [("p.lock", 0)] 60000000000 "p" =
      ([("p.lock", 60000000000)], none) := by decide

/-- C3 (amended): `Refresh` on a marker whose age is strictly greater than
the lease duration (`modTime + lockDur < now`) deletes the stale marker and
returns `ErrNotLocked` without recreating it, and `Refresh` on a path with
no marker at all returns `ErrNotLocked`; at age exactly equal to the lease
duration the marker is still live and is touched instead. -/
theorem refresh_strictly_expired_not_locked (l : Locker) (fs : FS)
    (now modTime : Int) (path : String) :
    (statFS fs (l.lockfile path) = some modTime → modTime + l.lockDur < now →
      l.Refresh fs now path =
        (removeEntry fs (l.lockfile path), some GoErr.notLocked)) ∧
    (statFS fs (l.lockfile path) = none →
      l.Refresh fs now path = (fs, some GoErr.notLocked)) := by
  constructor
  · intro hstat hexp
    have h1 : (statFS fs (l.lockfile path)).isSome := by rw [hstat]; rfl
    have h2 : statFS (removeEntry fs (l.lockfile path)) (l.lockfile path) = none :=
      statFS_removeEntry_self fs (l.lockfile path)
    simp [Locker.Refresh, Locker.removeIfExpired, removeFS, chtimesFS,
      hstat, hexp, h1, h2]
  · intro hstat
    simp [Locker.Refresh, Locker.removeIfExpired, chtimesFS, hstat]

/-- Witness for C3 (amended): stale marker one nanosecond past the lease,
and a bare path with no marker. -/
theorem refresh_strictly_expired_not_locked_witness :
    (Locker.mk none 0).Refresh [("p.lock", 0)] 60000000001 "p" =
      (removeEntry [("p.lock", 0)] ((Locker.mk none 0).lockfile "p"),
        some GoErr.notLocked) ∧
    (Locker.mk none 0).Refresh [] 7 "p" = ([], some GoErr.notLocked) :=
  ⟨(refresh_strictly_expired_not_locked (Locker.mk none 0) [("p.lock", 0)]
      60000000001 0 "p").1 (by decide) (by decide),
   (refresh_strictly_expired_not_locked (Locker.mk none 0) [] 7 0 "p").2
      (by decide)⟩

/-- C4: in `Lock`, losing the create race (`os.ErrExist` from the exclusive
open, after `removeIfExpired` reported the path free) yields `ErrLocked`,
while every other storage failure — from the stat, from the remove of an
expired marker, or from the create — is returned to the caller unchanged.
Stated over the oracle semantics so arbitrary storage errors can be
injected. -/
theorem lock_error_propagation (l : Locker) (statRes : StatRes)
    (removeRes closeRes : Option GoErr) (now : Int) :
    (l.removeIfExpiredOracle statRes removeRes now = none →
      l.LockOracle statRes removeRes (some GoErr.errExist) closeRes now =
        some GoErr.locked) ∧
    (∀ e : GoErr, e ≠ GoErr.errExist →
      l.removeIfExpiredOracle statRes removeRes now = none →
      l.LockOracle statRes removeRes (some e) closeRes now = some e) ∧
    (∀ e : GoErr, e ≠ GoErr.errNotExist → ∀ createRes : Option GoErr,
      l.LockOracle (StatRes.err e) removeRes createRes closeRes now = some e) ∧
    (∀ modTime : Int, ∀ e : GoErr, modTime + l.lockDur < now →
      ∀ createRes : Option GoErr,
      l.LockOracle (StatRes.ok modTime) (some e) createRes closeRes now =
        some e) := by
  refine ⟨?_, ?_, ?_, ?_⟩
  · intro h
    simp [Locker.LockOracle, h]
  · intro e he h
    simp [Locker.LockOracle, h, he]
  · intro e he createRes
    simp [Locker.LockOracle, Locker.removeIfExpiredOracle, he]
  · intro modTime e h createRes
    simp [Locker.LockOracle, Locker.removeIfExpiredOracle, h]

/-- Witness for C4: a free path where the create loses the race, a free path
with a permission-style create failure, a failing stat, and a failing remove
of an expired marker. -/
theorem lock_error_propagation_witness :
    (Locker.mk none 0).LockOracle (StatRes.err GoErr.errNotExist) none
      (some GoErr.errExist) none 0 = some GoErr.locked ∧
    (Locker.mk none 0).LockOracle (StatRes.err GoErr.errNotExist) none
      (some (GoErr.other 3)) none 0 = some (GoErr.other 3) ∧
    (Locker.mk none 0).LockOracle (StatRes.err (GoErr.other 5)) none none
      none 0 = some (GoErr.other 5) ∧
    (Locker.mk none 0).LockOracle (StatRes.ok 0) (some (GoErr.other 7)) none
      none 60000000001 = some (GoErr.other 7) :=
  ⟨(lock_error_propagation (Locker.mk none 0) (StatRes.err GoErr.errNotExist)
      none none 0).1 (by decide),
   (lock_error_propagation (Locker.mk none 0) (StatRes.err GoErr.errNotExist)
      none none 0).2.1 (GoErr.other 3) (by decide) (by decide),
   (lock_error_propagation (Locker.mk none 0) (StatRes.err GoErr.errNotExist)
      none none 0).2.2.1 (GoErr.other 5) (by decide) none,
   (lock_error_propagation (Locker.mk none 0) (StatRes.err GoErr.errNotExist)
      none none 60000000001).2.2.2 0 (GoErr.other 7) (by decide) none⟩

/-- C10: when the marker is expired (`modTime + lockDur < now`) and the
deletion fails with any error `e` — the not-found case `ErrNotExist`
included — both `Lock` and `Refresh` return `e` unchanged and do not reach
the create or touch step (the result does not depend on the create/touch
oracle).  The side condition `e ≠ ErrLocked` records that `os.Remove` never
returns the package's own `ErrLocked` sentinel. -/
theorem remove_error_propagation (l : Locker) (modTime now : Int) (e : GoErr)
    (hexp : modTime + l.lockDur < now) (he : e ≠ GoErr.locked) :
    (∀ createRes closeRes : Option GoErr,
      l.LockOracle (StatRes.ok modTime) (some e) createRes closeRes now =
        some e) ∧
    (∀ chtimesRes : Option GoErr,
      l.RefreshOracle (StatRes.ok modTime) (some e) chtimesRes now =
        some e) := by
  constructor
  · intro createRes closeRes
    simp [Locker.LockOracle, Locker.removeIfExpiredOracle, hexp]
  · intro chtimesRes
    simp [Locker.RefreshOracle, Locker.removeIfExpiredOracle, hexp, he]

/-- Witness for C10: an expired marker whose removal reports `ErrNotExist`
(it vanished between the stat and the delete). -/
theorem remove_error_propagation_witness :
    (Locker.mk none 0).LockOracle (StatRes.ok 0) (some GoErr.errNotExist)
      none none 60000000001 = some GoErr.errNotExist ∧
    (Locker.mk none 0).RefreshOracle (StatRes.ok 0) (some GoErr.errNotExist)
      none 60000000001 = some GoErr.errNotExist :=
  ⟨(remove_error_propagation (Locker.mk none 0) 0 60000000001
      GoErr.errNotExist (by decide) (by decide)).1 none none,
   (remove_error_propagation (Locker.mk none 0) 0 60000000001
      GoErr.errNotExist (by decide) (by decide)).2 none⟩

/-- C6: `Unlock` on a path with no marker returns success and changes
nothing; `Unlock` always succeeds against the filesystem, afterwards the
marker is absent, and a second `Unlock` in a row also succeeds, changing
nothing further (idempotence). -/
theorem unlock_idempotent (l : Locker) (fs : FS) (path : String) :
    (statFS fs (l.lockfile path) = none → l.Unlock fs path = (fs, none)) ∧
    (l.Unlock fs path).2 = none ∧
    statFS (l.Unlock fs path).1 (l.lockfile path) = none ∧
    l.Unlock (l.Unlock fs path).1 path = ((l.Unlock fs path).1, none) := by
  by_cases h : statFS fs (l.lockfile path) = none
  · have hu : l.Unlock fs path = (fs, none) := by
      simp [Locker.Unlock, removeFS, h]
    exact ⟨fun _ => hu, by simp [hu], by simp [hu, h], by simp [hu]⟩
  · have hu : l.Unlock fs path = (removeEntry fs (l.lockfile path), none) := by
      simp [Locker.Unlock, removeFS, Option.isSome_iff_ne_none.mpr h]
    have h2 : statFS (removeEntry fs (l.lockfile path)) (l.lockfile path) = none :=
      statFS_removeEntry_self fs (l.lockfile path)
    have hu2 : l.Unlock (removeEntry fs (l.lockfile path)) path =
        (removeEntry fs (l.lockfile path), none) := by
      simp [Locker.Unlock, removeFS, h2]
    exact ⟨fun hc => absurd hc h, by simp [hu], by simp [hu, h2],
      by simp [hu, hu2]⟩

/-- Witness for C6: unlocking a never-locked path, then unlocking twice
starting from a locked filesystem. -/
theorem unlock_idempotent_witness :
    (Locker.mk none 0).Unlock [] "p" = ([], none) ∧
    ((Locker.mk none 0).Unlock [("p.lock", 3)] "p").2 = none ∧
    (Locker.mk none 0).Unlock
        ((Locker.mk none 0).Unlock [("p.lock", 3)] "p").1 "p" =
      (((Locker.mk none 0).Unlock [("p.lock", 3)] "p").1, none) :=
  ⟨(unlock_idempotent (Locker.mk none 0) [] "p").1 (by decide),
   (unlock_idempotent (Locker.mk none 0) [("p.lock", 3)] "p").2.1,
   (unlock_idempotent (Locker.mk none 0) [("p.lock", 3)] "p").2.2.2⟩

/-- C7: `Refresh` on a live marker succeeds and sets the marker's
modification time to the current time; consequently, after a `Lock` at `t0`,
a `Refresh` at any `t1` within the lease succeeds, and a `Lock` by another
caller at any `t2` within the renewed lease still returns `ErrLocked` — in
particular for `t1 = t0 + leaseDuration/2` and `t2 = t1 + leaseDuration/2`. -/
theorem refresh_extends_lease (l : Locker) (fs : FS) (t0 t1 t2 : Int)
    (path : String)
    (h0 : statFS fs (l.lockfile path) = none)
    (h1 : t1 ≤ t0 + l.lockDur)
    (h2 : t2 ≤ t1 + l.lockDur) :
    (∀ fs' : FS, ∀ now modTime : Int,
      statFS fs' (l.lockfile path) = some modTime →
      now ≤ modTime + l.lockDur →
      l.Refresh fs' now path =
        ((l.lockfile path, now) :: removeEntry fs' (l.lockfile path), none)) ∧
    (l.Lock fs t0 path).2 = none ∧
    (l.Refresh (l.Lock fs t0 path).1 t1 path).2 = none ∧
    statFS (l.Refresh (l.Lock fs t0 path).1 t1 path).1 (l.lockfile path) =
      some t1 ∧
    (l.Lock (l.Refresh (l.Lock fs t0 path).1 t1 path).1 t2 path).2 =
      some GoErr.locked := by
  have hfs1 : l.Lock fs t0 path = ((l.lockfile path, t0) :: fs, none) :=
    lock_creates_of_absent l fs t0 path h0
  have hstat1 : statFS ((l.lockfile path, t0) :: fs) (l.lockfile path) =
      some t0 := by
    simp [statFS]
  have hfs2 : l.Refresh ((l.lockfile path, t0) :: fs) t1 path =
      ((l.lockfile path, t1) ::
        removeEntry ((l.lockfile path, t0) :: fs) (l.lockfile path), none) :=
    refresh_touch_of_live l _ t1 t0 path hstat1 h1
  have hstat2 : statFS ((l.lockfile path, t1) ::
      removeEntry ((l.lockfile path, t0) :: fs) (l.lockfile path))
      (l.lockfile path) = some t1 := by
    simp [statFS]
  have hlock2 := lock_locked_of_live l _ t2 t1 path hstat2 h2
  exact ⟨fun fs' now modTime hs hl =>
      refresh_touch_of_live l fs' now modTime path hs hl,
    by simp [hfs1], by simp [hfs1, hfs2], by simp [hfs1, hfs2, hstat2],
    by simp [hfs1, hfs2, hlock2]⟩

/-- Witness for C7: default lease, lock at 0, refresh at 30 s, contending
lock at 60 s. -/
theorem refresh_extends_lease_witness :
    ((Locker.mk none 0).Lock [] 0 "p").2 = none ∧
    ((Locker.mk none 0).Refresh ((Locker.mk none 0).Lock [] 0 "p").1
      30000000000 "p").2 = none ∧
    statFS ((Locker.mk none 0).Refresh ((Locker.mk none 0).Lock [] 0 "p").1
      30000000000 "p").1 ((Locker.mk none 0).lockfile "p") =
      some 30000000000 ∧
    ((Locker.mk none 0).Lock
      ((Locker.mk none 0).Refresh ((Locker.mk none 0).Lock [] 0 "p").1
        30000000000 "p").1 60000000000 "p").2 = some GoErr.locked :=
  have h := refresh_extends_lease (Locker.mk none 0) [] 0 30000000000
    60000000000 "p" (by decide) (by decide) (by decide)
  ⟨h.2.1, h.2.2.1, h.2.2.2.1, h.2.2.2.2⟩

/-- C8: with a configured marker-naming function `f` the marker path for `P`
is `f P`, with none configured it is `P ++ ".lock"`; `Lock`, `Unlock` and
`Refresh` on `P` never touch any path other than the marker path, a
successful `Lock` creates the marker there, `Unlock` leaves no marker there,
and a successful `Refresh` leaves it there with the current time. -/
theorem marker_naming_respected (f : String → String) (dur : Int)
    (path q : String) (fs : FS) (now : Int) :
    ((Locker.mk (some f) dur).lockfile path = f path) ∧
    ((Locker.mk none dur).lockfile path = path ++ ".lock") ∧
    (∀ l : Locker, q ≠ l.lockfile path →
      statFS (l.Lock fs now path).1 q = statFS fs q ∧
      statFS (l.Unlock fs path).1 q = statFS fs q ∧
      statFS (l.Refresh fs now path).1 q = statFS fs q) ∧
    (∀ l : Locker, (l.Lock fs now path).2 = none →
      statFS (l.Lock fs now path).1 (l.lockfile path) = some now) ∧
    (∀ l : Locker, statFS (l.Unlock fs path).1 (l.lockfile path) = none) ∧
    (∀ l : Locker, (l.Refresh fs now path).2 = none →
      statFS (l.Refresh fs now path).1 (l.lockfile path) = some now) := by
  refine ⟨rfl, rfl, ?_, ?_, ?_, ?_⟩
  · intro l hq
    rcases hs : statFS fs (l.lockfile path) with _ | modTime
    · refine ⟨?_, ?_, ?_⟩
      · simp [lock_creates_of_absent l fs now path hs, statFS, Ne.symm hq]
      · simp [unlock_of_absent l fs path hs]
      · simp [refresh_not_locked_of_absent l fs now path hs]
    · have hpres : (statFS fs (l.lockfile path)).isSome := by rw [hs]; rfl
      by_cases hexp : modTime + l.lockDur < now
      · refine ⟨?_, ?_, ?_⟩
        · simp [lock_reclaim_of_expired l fs now modTime path hs hexp,
            statFS, Ne.symm hq,
            statFS_removeEntry_other fs (l.lockfile path) q hq]
        · simp [unlock_of_present l fs path hpres,
            statFS_removeEntry_other fs (l.lockfile path) q hq]
        · simp [refresh_removes_expired l fs now modTime path hs hexp,
            statFS_removeEntry_other fs (l.lockfile path) q hq]
      · have hlive : now ≤ modTime + l.lockDur := by omega
        refine ⟨?_, ?_, ?_⟩
        · simp [lock_locked_of_live l fs now modTime path hs hlive]
        · simp [unlock_of_present l fs path hpres,
            statFS_removeEntry_other fs (l.lockfile path) q hq]
        · simp [refresh_touch_of_live l fs now modTime path hs hlive,
            statFS, Ne.symm hq,
            statFS_removeEntry_other fs (l.lockfile path) q hq]
  · intro l hok
    rcases hs : statFS fs (l.lockfile path) with _ | modTime
    · simp [lock_creates_of_absent l fs now path hs, statFS]
    · by_cases hexp : modTime + l.lockDur < now
      · simp [lock_reclaim_of_expired l fs now modTime path hs hexp, statFS]
      · have hlive : now ≤ modTime + l.lockDur := by omega
        rw [lock_locked_of_live l fs now modTime path hs hlive] at hok
        simp at hok
  · intro l
    rcases hs : statFS fs (l.lockfile path) with _ | modTime
    · simp [unlock_of_absent l fs path hs, hs]
    · have hpres : (statFS fs (l.lockfile path)).isSome := by rw [hs]; rfl
      simp [unlock_of_present l fs path hpres,
        statFS_removeEntry_self fs (l.lockfile path)]
  · intro l hok
    rcases hs : statFS fs (l.lockfile path) with _ | modTime
    · rw [refresh_not_locked_of_absent l fs now path hs] at hok
      simp at hok
    · by_cases hexp : modTime + l.lockDur < now
      · rw [refresh_removes_expired l fs now modTime path hs hexp] at hok
        simp at hok
      · have hlive : now ≤ modTime + l.lockDur := by omega
        simp [refresh_touch_of_live l fs now modTime path hs hlive, statFS]

/-- Witness for C8: a namer mapping every path to "q", observed on a lock of
"p" over a filesystem holding an unrelated entry. -/
theorem marker_naming_respected_witness :
    ((Locker.mk (some (fun _ => "q")) 0).lockfile "p" = "q") ∧
    ((Locker.mk none 0).lockfile "p" = "p" ++ ".lock") ∧
    statFS ((Locker.mk (some (fun _ => "q")) 0).Lock [("r", 1)] 2 "p").1 "r" =
      statFS [("r", 1)] "r" ∧
    statFS ((Locker.mk (some (fun _ => "q")) 0).Lock [("r", 1)] 2 "p").1
      ((Locker.mk (some (fun _ => "q")) 0).lockfile "p") = some 2 :=
  have h := marker_naming_respected (fun _ => "q") 0 "p" "r" [("r", 1)] 2
  ⟨h.1, h.2.1,
   (h.2.2.1 (Locker.mk (some (fun _ => "q")) 0) (by decide)).1,
   h.2.2.2.1 (Locker.mk (some (fun _ => "q")) 0) (by decide)⟩

/-- C9: the zero-value `Locker` uses a one-minute (60 s = 60.10⁹ ns) lease:
`lockDur` defaults to `defaultDur = time.Minute`, a marker at most one
minute old keeps `Lock` returning `ErrLocked` and lets `Refresh` succeed,
and a marker strictly older than one minute lets `Lock` succeed. -/
theorem default_lease_duration (fs : FS) (now modTime : Int) (path : String) :
    (Locker.mk none 0).lockDur = 60 * 1000000000 ∧
    defaultDur = 60 * 1000000000 ∧
    (statFS fs ((Locker.mk none 0).lockfile path) = some modTime →
      now ≤ modTime + 60 * 1000000000 →
      (Locker.mk none 0).Lock fs now path = (fs, some GoErr.locked) ∧
      ((Locker.mk none 0).Refresh fs now path).2 = none) ∧
    (statFS fs ((Locker.mk none 0).lockfile path) = some modTime →
      modTime + 60 * 1000000000 < now →
      ((Locker.mk none 0).Lock fs now path).2 = none) := by
  have hd : (Locker.mk none 0).lockDur = 60 * 1000000000 := by decide
  refine ⟨hd, rfl, ?_, ?_⟩
  · intro hstat hlive
    refine ⟨lock_locked_of_live _ fs now modTime path hstat (by rw [hd]; omega), ?_⟩
    simp [refresh_touch_of_live (Locker.mk none 0) fs now modTime path hstat
      (by rw [hd]; omega)]
  · intro hstat hexp
    simp [lock_reclaim_of_expired (Locker.mk none 0) fs now modTime path hstat
      (by rw [hd]; omega)]

/-- Witness for C9: boundary at exactly one minute (still locked) and one
nanosecond past it (reclaimed). -/
theorem default_lease_duration_witness :
    (Locker.mk none 0).lockDur = 60 * 1000000000 ∧
    (Locker.mk none 0).Lock [("p.lock", 0)] 60000000000 "p" =
      ([("p.lock", 0)], some GoErr.locked) ∧
    ((Locker.mk none 0).Refresh [("p.lock", 0)] 60000000000 "p").2 = none ∧
    ((Locker.mk none 0).Lock [("p.lock", 0)] 60000000001 "p").2 = none :=
  have ha := default_lease_duration [("p.lock", 0)] 60000000000 0 "p"
  have hb := default_lease_duration [("p.lock", 0)] 60000000001 0 "p"
  ⟨ha.1, (ha.2.2.1 (by decide) (by decide)).1,
   (ha.2.2.1 (by decide) (by decide)).2,
   hb.2.2.2 (by decide) (by decide)⟩

/-! ### The race invariant is preserved by scheduler steps -/

theorem mem_replace_cases {α : Type} (ps qs : List α) (a b x : α)
    (hx : x ∈ ps ++ b :: qs) : x = b ∨ x ∈ ps ++ a :: qs := by
  rcases List.mem_append.mp hx with h | h
  · exact Or.inr (List.mem_append.mpr (Or.inl h))
  · rcases List.mem_cons.mp h with h | h
    · exact Or.inl h
    · exact Or.inr (List.mem_append.mpr (Or.inr (List.mem_cons.mpr (Or.inr h))))

theorem count_replace_ne {α : Type} [DecidableEq α] (ps qs : List α)
    (a b x : α) (ha : a ≠ x) (hb : b ≠ x) :
    (ps ++ b :: qs).count x = (ps ++ a :: qs).count x := by
  simp [List.count_append, List.count_cons, beq_iff_eq, ha, hb]

theorem count_replace_self {α : Type} [DecidableEq α] (ps qs : List α)
    (a b : α) (ha : a ≠ b) :
    (ps ++ b :: qs).count b = (ps ++ a :: qs).count b + 1 := by
  simp [List.count_append, List.count_cons, beq_iff_eq, ha]
  omega

theorem count_pair_of_forall {α : Type} [DecidableEq α] (xs : List α)
    (a b : α) (hab : a ≠ b) (h : ∀ x ∈ xs, x = a ∨ x = b) :
    xs.count a + xs.count b = xs.length := by
  induction xs with
  | nil => simp
  | cons x t ih =>
    have ht := ih (fun y hy => h y (List.mem_cons_of_mem x hy))
    rcases h x (List.mem_cons_self x t) with rfl | rfl
    · simp only [List.count_cons, beq_iff_eq, List.length_cons]
      simp [hab]
      omega
    · simp only [List.count_cons, beq_iff_eq, List.length_cons]
      simp [hab, Ne.symm hab]
      omega


theorem RaceInv_step (l : Locker) (now : Int) (lockfile : String) (n : Nat)
    (hdur : 0 < l.lockDur) (c c' : FS × List AcqState)
    (hinv : RaceInv lockfile now n c)
    (hstep : AcqStep l now lockfile c c') :
    RaceInv lockfile now n c' := by
  obtain ⟨hlen, hcase⟩ := hinv
  cases hstep with
  | stat fs ps qs s heq =>
    rcases hcase with ⟨hfs, hmem⟩ | ⟨hfs, hcount, hmem⟩
    · have hfs' : statFS fs lockfile = none := hfs
      have hc : acqStat l fs now lockfile = AcqState.checked := by
        simp [acqStat, hfs']
      rw [hc] at heq
      subst heq
      refine ⟨by simpa using hlen, Or.inl ⟨hfs', ?_⟩⟩
      intro x hx
      rcases mem_replace_cases ps qs AcqState.started AcqState.checked x hx with
        rfl | hx'
      · exact Or.inr rfl
      · exact hmem x hx'
    · have hfs' : statFS fs lockfile = some now := hfs
      have hnot : ¬ (now + l.lockDur < now) := by omega
      have hc : acqStat l fs now lockfile =
          AcqState.done (some GoErr.locked) := by
        simp [acqStat, hfs', hnot]
      rw [hc] at heq
      subst heq
      refine ⟨by simpa using hlen, Or.inr ⟨hfs', ?_, ?_⟩⟩
      · rw [count_replace_ne ps qs AcqState.started
          (AcqState.done (some GoErr.locked)) (AcqState.done none)
          (by simp) (by simp)]
        exact hcount
      · intro x hx
        rcases mem_replace_cases ps qs AcqState.started
          (AcqState.done (some GoErr.locked)) x hx with rfl | hx'
        · simp
        · exact hmem x hx'
  | remove fs fs' ps qs s heq =>
    have hmemrm : AcqState.removing ∈ ps ++ AcqState.removing :: qs :=
      List.mem_append.mpr (Or.inr (List.mem_cons_self _ _))
    rcases hcase with ⟨hfs, hmem⟩ | ⟨hfs, hcount, hmem⟩
    · rcases hmem AcqState.removing hmemrm with h | h <;> simp at h
    · rcases hmem AcqState.removing hmemrm with h | h | h | h <;> simp at h
  | create fs fs' ps qs s heq =>
    rcases hcase with ⟨hfs, hmem⟩ | ⟨hfs, hcount, hmem⟩
    · have hfs' : statFS fs lockfile = none := hfs
      have hc : acqCreate fs now lockfile =
          ((lockfile, now) :: fs, AcqState.done none) := by
        simp [acqCreate, openFileExcl, hfs']
      rw [hc] at heq
      injection heq with h1 h2
      subst h1; subst h2
      have hzero : (ps ++ AcqState.checked :: qs).count (AcqState.done none) = 0 := by
        rw [List.count_eq_zero]
        intro hmem'
        rcases hmem (AcqState.done none) hmem' with h | h <;> simp at h
      refine ⟨by simpa using hlen, Or.inr ⟨by simp [statFS], ?_, ?_⟩⟩
      · rw [count_replace_self ps qs AcqState.checked (AcqState.done none)
          (by simp), hzero]
      · intro x hx
        rcases mem_replace_cases ps qs AcqState.checked (AcqState.done none)
          x hx with rfl | hx'
        · simp
        · rcases hmem x hx' with h | h
          · exact Or.inl h
          · exact Or.inr (Or.inl h)
    · have hfs' : statFS fs lockfile = some now := hfs
      have hpres : (statFS fs lockfile).isSome := by rw [hfs']; rfl
      have hc : acqCreate fs now lockfile =
          (fs, AcqState.done (some GoErr.locked)) := by
        simp [acqCreate, openFileExcl, hpres]
      rw [hc] at heq
      injection heq with h1 h2
      subst h1; subst h2
      refine ⟨by simpa using hlen, Or.inr ⟨hfs', ?_, ?_⟩⟩
      · rw [count_replace_ne ps qs AcqState.checked
          (AcqState.done (some GoErr.locked)) (AcqState.done none)
          (by simp) (by simp)]
        exact hcount
      · intro x hx
        rcases mem_replace_cases ps qs AcqState.checked
          (AcqState.done (some GoErr.locked)) x hx with rfl | hx'
        · simp
        · exact hmem x hx'

theorem RaceInv_run (l : Locker) (now : Int) (lockfile : String) (n : Nat)
    (hdur : 0 < l.lockDur) (c c' : FS × List AcqState)
    (hinv : RaceInv lockfile now n c)
    (hrun : Relation.ReflTransGen (AcqStep l now lockfile) c c') :
    RaceInv lockfile now n c' := by
  induction hrun with
  | refl => exact hinv
  | tail _ hbc ih => exact RaceInv_step l now lockfile n hdur _ _ ih hbc

/-- C5 counterexample: a present but expired marker is "no prior live lock",
yet two concurrent `Lock` calls racing over it can both succeed, because the
`os.Stat` and `os.Remove` inside `removeIfExpired` are separate syscalls:
both acquirers stat the expired marker; one removes it and wins the
exclusive create; then the other's pending `os.Remove` deletes that freshly
created marker and its own exclusive create succeeds too.  The schedule is
complete (both acquirers are done) and ends with two successes instead of
exactly one. -/
theorem lock_race_expired_marker_counterexample :
    Relation.ReflTransGen
      (AcqStep (Locker.mk none 0) 60000000001 "p.lock")
      ([("p.lock", 0)], List.replicate 2 AcqState.started)
      ([("p.lock", 60000000001)],
        [AcqState.done none, AcqState.done none]) ∧
    [AcqState.done none, AcqState.done none].count (AcqState.done none) = 2 := by
  refine ⟨?_, by decide⟩
  have t1 : AcqStep (Locker.mk none 0) 60000000001 "p.lock"
      ([("p.lock", 0)], [AcqState.started, AcqState.started])
      ([("p.lock", 0)], [AcqState.removing, AcqState.started]) :=
    AcqStep.stat [("p.lock", 0)] [] [AcqState.started] AcqState.removing
      (by decide)
  have t2 : AcqStep (Locker.mk none 0) 60000000001 "p.lock"
      ([("p.lock", 0)], [AcqState.removing, AcqState.started])
      ([("p.lock", 0)], [AcqState.removing, AcqState.removing]) :=
    AcqStep.stat [("p.lock", 0)] [AcqState.removing] [] AcqState.removing
      (by decide)
  have t3 : AcqStep (Locker.mk none 0) 60000000001 "p.lock"
      ([("p.lock", 0)], [AcqState.removing, AcqState.removing])
      ([], [AcqState.removing, AcqState.checked]) :=
    AcqStep.remove [("p.lock", 0)] [] [AcqState.removing] []
      AcqState.checked (by decide)
  have t4 : AcqStep (Locker.mk none 0) 60000000001 "p.lock"
      ([], [AcqState.removing, AcqState.checked])
      ([("p.lock", 60000000001)], [AcqState.removing, AcqState.done none]) :=
    AcqStep.create [] [("p.lock", 60000000001)] [AcqState.removing] []
      (AcqState.done none) (by decide)
  have t5 : AcqStep (Locker.mk none 0) 60000000001 "p.lock"
      ([("p.lock", 60000000001)], [AcqState.removing, AcqState.done none])
      ([], [AcqState.checked, AcqState.done none]) :=
    AcqStep.remove [("p.lock", 60000000001)] [] [] [AcqState.done none]
      AcqState.checked (by decide)
  have t6 : AcqStep (Locker.mk none 0) 60000000001 "p.lock"
      ([], [AcqState.checked, AcqState.done none])
      ([("p.lock", 60000000001)],
        [AcqState.done none, AcqState.done none]) :=
    AcqStep.create [] [("p.lock", 60000000001)] [] [AcqState.done none]
      (AcqState.done none) (by decide)
  exact Relation.ReflTransGen.tail
    (Relation.ReflTransGen.tail
      (Relation.ReflTransGen.tail
        (Relation.ReflTransGen.tail
          (Relation.ReflTransGen.tail
            (Relation.ReflTransGen.tail Relation.ReflTransGen.refl t1)
            t2) t3) t4) t5) t6

/-- C5 (amended): when `N ≥ 1` acquirers race `Lock` on the same path with
no prior marker at the marker path (and a positive lease duration), any
complete interleaving of their atomic syscalls ends with exactly one
acquirer succeeding and the other `N − 1` finishing with `ErrLocked` —
never two successes.  With a present-but-expired marker the property fails
on the code (see the counterexample): the stat→remove window lets a racer
delete the winner's fresh marker and succeed as well. -/
theorem lock_race_mutual_exclusion (l : Locker) (now : Int)
    (lockfile : String) (n : Nat) (hn : 1 ≤ n) (hdur : 0 < l.lockDur)
    (fs0 : FS) (hfree : statFS fs0 lockfile = none)
    (fs : FS) (ss : List AcqState)
    (hrun : Relation.ReflTransGen (AcqStep l now lockfile)
      (fs0, List.replicate n AcqState.started) (fs, ss))
    (hdone : ∀ s ∈ ss, ∃ r, s = AcqState.done r) :
    ss.count (AcqState.done none) = 1 ∧
    ss.count (AcqState.done (some GoErr.locked)) = n - 1 := by
  have hstart : RaceInv lockfile now n
      (fs0, List.replicate n AcqState.started) := by
    refine ⟨List.length_replicate n AcqState.started, Or.inl ⟨hfree, ?_⟩⟩
    intro s hs
    exact Or.inl (List.eq_of_mem_replicate hs)
  have hinv := RaceInv_run l now lockfile n hdur _ _ hstart hrun
  obtain ⟨hlen, hcase⟩ := hinv
  rcases hcase with ⟨_, hmem⟩ | ⟨_, hcount, hmem⟩
  · cases ss with
    | nil => simp at hlen; omega
    | cons a t =>
      obtain ⟨r, hr⟩ := hdone a (List.mem_cons_self a t)
      rcases hmem a (List.mem_cons_self a t) with h | h <;>
        (rw [hr] at h; cases h)
  · have hcount' : ss.count (AcqState.done none) = 1 := hcount
    have hlen' : ss.length = n := hlen
    refine ⟨hcount', ?_⟩
    have hpair : ∀ x ∈ ss, x = AcqState.done none ∨
        x = AcqState.done (some GoErr.locked) := by
      intro x hx
      obtain ⟨r, hr⟩ := hdone x hx
      rcases hmem x hx with h | h | h | h
      · rw [hr] at h; cases h
      · rw [hr] at h; cases h
      · exact Or.inl h
      · exact Or.inr h
    have hsum := count_pair_of_forall ss (AcqState.done none)
      (AcqState.done (some GoErr.locked)) (by simp) hpair
    rw [hlen'] at hsum
    omega

/-- Witness for C5 (amended): two acquirers on a free path, scheduled
stat₀, create₀, stat₁ — the first wins, the second sees the fresh marker
and gets `ErrLocked`. -/
theorem lock_race_mutual_exclusion_witness :
    ([AcqState.done none,
      AcqState.done (some GoErr.locked)].count (AcqState.done none) = 1) ∧
    ([AcqState.done none,
      AcqState.done (some GoErr.locked)].count
        (AcqState.done (some GoErr.locked)) = 2 - 1) := by
  have t1 : AcqStep (Locker.mk none 0) 0 "p.lock"
      ([], [AcqState.started, AcqState.started])
      ([], [AcqState.checked, AcqState.started]) :=
    AcqStep.stat [] [] [AcqState.started] AcqState.checked (by decide)
  have t2 : AcqStep (Locker.mk none 0) 0 "p.lock"
      ([], [AcqState.checked, AcqState.started])
      ([("p.lock", 0)], [AcqState.done none, AcqState.started]) :=
    AcqStep.create [] [("p.lock", 0)] [] [AcqState.started]
      (AcqState.done none) (by decide)
  have t3 : AcqStep (Locker.mk none 0) 0 "p.lock"
      ([("p.lock", 0)], [AcqState.done none, AcqState.started])
      ([("p.lock", 0)],
        [AcqState.done none, AcqState.done (some GoErr.locked)]) :=
    AcqStep.stat [("p.lock", 0)] [AcqState.done none] []
      (AcqState.done (some GoErr.locked)) (by decide)
  have hrun : Relation.ReflTransGen (AcqStep (Locker.mk none 0) 0 "p.lock")
      ([], List.replicate 2 AcqState.started)
      ([("p.lock", 0)],
        [AcqState.done none, AcqState.done (some GoErr.locked)]) :=
    Relation.ReflTransGen.tail
      (Relation.ReflTransGen.tail
        (Relation.ReflTransGen.tail Relation.ReflTransGen.refl t1) t2) t3
  exact lock_race_mutual_exclusion (Locker.mk none 0) 0 "p.lock" 2
    (by decide) (by decide) [] (by decide) [("p.lock", 0)]
    [AcqState.done none, AcqState.done (some GoErr.locked)] hrun
    (by
      intro s hs
      rcases List.mem_cons.mp hs with rfl | hs
      · exact ⟨none, rfl⟩
      · rcases List.mem_cons.mp hs with rfl | hs
        · exact ⟨some GoErr.locked, rfl⟩
        · cases hs)

end Flock
